import Mathlib

/-!
Verification of the seshet IRC bot core (src/seshet/bot.py) against its
natural-language specification.

The Python source is shallowly embedded: the mutable object graph
(SeshetBot holding dicts of SeshetUser and SeshetChannel objects that
reference each other) is flattened into a record of insertion-ordered
association lists; a user's `channels` list of channel object references
becomes a list of (case-normalized) channel names.  Python exceptions
(KeyError, AttributeError, RuntimeError, IndexError) are modelled
explicitly; a handler that raises returns the partially mutated state it
leaves behind together with a `false` completion flag, matching the
source, where event handlers do not roll back prior steps.

The class IRCstr lives in seshet/utils.py, which is not part of the
sources under verification; it is modelled from the spec (section 3):
a case-normalized identity string under IRC case-folding (uppercase to
lowercase extended by mapping each of []\~ to the corresponding one of
the characters left-brace, right-brace, pipe and caret), and every map
keyed by a nick or channel name resolves keys up to that normalization.
-/

/-- Python `str.lower()` restricted to ASCII (all identities in scope are
ASCII): uppercase letters are shifted to lowercase, all else unchanged. -/
def pyLowerChar (c : Char) : Char :=
  if ('A') ≤ c ∧ c ≤ ('Z') then Char.ofNat (c.toNat + 32) else c

/-- Python `s.lower()` over the string's code points. -/
def pyLower (s : String) : String := String.mk (s.data.map pyLowerChar)

/-- Modelled from the spec: the IRC case-folding used by `IRCstr`
(seshet/utils.py, not in src): ASCII lowercasing extended with the
RFC-1459 identifications of []\~ with left-brace, right-brace, pipe, caret. -/
def ircLowerChar (c : Char) : Char :=
  if ('A') ≤ c ∧ c ≤ ('Z') then Char.ofNat (c.toNat + 32)
  else if c = ('[') then ('{')
  else if c = (']') then ('}')
  else if c = ('\\') then ('|')
  else if c = ('~') then ('^')
  else c

/-- Modelled from the spec: `IRCstr(s)` is represented by its canonical
(case-folded) form, so that equality and hashing of `IRCstr` become plain
string equality of normal forms. -/
def IRCstr.norm (s : String) : String := String.mk (s.data.map ircLowerChar)

/-- Python `s.split()`: split on runs of whitespace, no empty tokens.
Single accumulator pass over the code points (structural recursion). -/
def pySplitAux (cur : List Char) : List Char → List (List Char)
  | [] => if cur.isEmpty then [] else [cur.reverse]
  | c :: cs =>
    if c.isWhitespace then
      if cur.isEmpty then pySplitAux [] cs else cur.reverse :: pySplitAux [] cs
    else pySplitAux (c :: cur) cs

/-- Python `s.split()` (whitespace tokenization). -/
def pySplit (s : String) : List String := (pySplitAux [] s.data).map String.mk

/-- Python `s.startswith(p)` over code points. -/
def pyStartsWith (s p : String) : Bool := List.isPrefixOf p.data s.data

/-- Python `s[n:]` (slice from code point n). -/
def pyDrop (s : String) (n : Nat) : String := String.mk (s.data.drop n)

/-- Python `len(s)` in code points. -/
def pyLen (s : String) : Nat := s.data.length

/-- Python `s.lstrip(',: ')`: drop leading commas, colons and spaces. -/
def pyLstripSep (s : String) : String :=
  String.mk (s.data.dropWhile (fun c => c == (',') || c == (':') || c == (' ')))

/-- Python exceptions that the embedded code can raise. -/
inductive PyError where
  | keyError
  | indexError
  | runtimeError
  | attributeError
deriving DecidableEq, Repr

/-- Lookup in an insertion-ordered dict (`d[k]` / `k in d`). -/
def dictFind {α : Type} : List (String × α) → String → Option α
  | [], _ => none
  | (k1, v1) :: t, k => if k1 = k then some v1 else dictFind t k

/-- Python `k in d`. -/
def dictContains {α : Type} (m : List (String × α)) (k : String) : Bool :=
  (dictFind m k).isSome

/-- Python `d[k] = v`: update in place if the key is present (keeping its
position in insertion order), otherwise append at the end. -/
def dictInsert {α : Type} : List (String × α) → String → α → List (String × α)
  | [], k, v => [(k, v)]
  | (k1, v1) :: t, k, v => if k1 = k then (k, v) :: t else (k1, v1) :: dictInsert t k v

/-- Python `del d[k]`: remove the entry with the given key (no-op here when
absent; all call sites in scope delete keys known to be present). -/
def dictDelete {α : Type} : List (String × α) → String → List (String × α)
  | [], _ => []
  | (k1, v1) :: t, k => if k1 = k then t else (k1, v1) :: dictDelete t k

/-- Python `set.add`: insert if absent (sets are modelled as duplicate-free
lists; every theorem about them is stated via membership). -/
def setAdd (s : List String) (x : String) : List String :=
  if x ∈ s then s else s ++ [x]

/-- Python `set(iterable)`: deduplicate. -/
def setOfList (l : List String) : List String := l.foldl setAdd []

/-- Python `a | b` on sets. -/
def setUnion (a b : List String) : List String := b.foldl setAdd a

/-- Python `a - b` on sets. -/
def setDiff (a b : List String) : List String := a.filter (fun x => !(b.contains x))

/-- `set(raws) & nicks` where `nicks` holds normalized identities and `raws`
raw strings: nonempty intersection up to IRC case-folding (IRCstr equality,
modelled from the spec, identifies case-variants). -/
def ircAny (raws : List String) (nicks : List String) : Bool :=
  raws.any (fun n => nicks.contains (IRCstr.norm n))

/-- One SeshetUser object (bot.py lines 13-65).  `channels` holds the
(normalized) names of the joined channels, standing for the Python list of
channel object references. -/
structure SeshetUser where
  nick : String
  user : String
  host : String
  channels : List String
deriving DecidableEq, Repr

/-- One SeshetChannel object (bot.py lines 68-101).  `users` is the Python
set of member nicks; `message_log` entries are (timestamp, author, text)
with the clock passed in explicitly; `log_size` is the `_log_size` cap. -/
structure SeshetChannel where
  name : String
  users : List String
  message_log : List (Nat × String × String)
  log_size : Nat
deriving DecidableEq, Repr

/-- The per-connection session state of SeshetBot: identity read from the
connection collaborator plus the two roster maps.  The database, file log
and module configuration are external collaborators and appear as explicit
arguments or result records of the operations that touch them. -/
structure SeshetBot where
  nickname : String
  user : String
  real_name : String
  channels : List (String × SeshetChannel)
  users : List (String × SeshetUser)
deriving DecidableEq, Repr

/-- `SeshetUser.join` (bot.py lines 23-30): link user and channel both ways
unless already a member. -/
def SeshetUser.join (u : SeshetUser) (c : SeshetChannel) : SeshetUser × SeshetChannel :=
  if c.name ∈ u.channels then (u, c)
  else ({ u with channels := u.channels ++ [c.name] },
        { c with users := setAdd c.users u.nick })

/-- `SeshetUser.part` (bot.py lines 32-39): unlink user and channel.  The
source calls `channel.users.remove(self.nick)`, which raises KeyError when
the nick is not in the set; `none` is that exception (no net mutation,
since the set removal is the first mutating step). -/
def SeshetUser.part (u : SeshetUser) (c : SeshetChannel) : Option (SeshetUser × SeshetChannel) :=
  if c.name ∈ u.channels then
    if u.nick ∈ c.users then
      some ({ u with channels := u.channels.erase c.name },
            { c with users := c.users.erase u.nick })
    else none
  else some (u, c)

/-- `SeshetChannel.log_message` cap enforcement (bot.py lines 93-94):
`while len(log) > size: del log[0]`. -/
def logTrim (cap : Nat) : List (Nat × String × String) → List (Nat × String × String)
  | [] => []
  | x :: xs => if xs.length + 1 > cap then logTrim cap xs else x :: xs

/-- `SeshetChannel.log_message` (bot.py lines 77-94): normalize the author
to an identity, append `(now, author, text)`, then evict from the front
while over the cap.  `now` stands for `datetime.utcnow()`. -/
def SeshetChannel.log_message (c : SeshetChannel) (now : Nat) (user msg : String) : SeshetChannel :=
  { c with message_log := logTrim c.log_size (c.message_log ++ [(now, IRCstr.norm user, msg)]) }

/-- `_add_channel_names` (bot.py lines 517-525), the RPL_NAMES handler:
unconditionally stores a fresh SeshetChannel (empty message log, default
cap 100) whose user set is built from the received name list. -/
def add_channel_names (bot : SeshetBot) (chanRaw : String) (name_list : List String) : SeshetBot :=
  let chan := IRCstr.norm chanRaw
  let names := setOfList (name_list.map IRCstr.norm)
  { bot with channels := dictInsert bot.channels chan ⟨chan, names, [], 100⟩ }

/-- `SeshetBot.on_join` (bot.py lines 305-319).  The leading `self.log`
call and the trailing `self.run_modules(e)` call do not touch the roster
and are modelled by the operations that the claims about them use.  When
the join comes from another nick, an unknown user is first created, then
`self.users[nick].join(self.channels[chan])` runs; if the channel is not
in the map the KeyError fires after the user was already inserted, so the
partial state keeps the fresh user.  The guard compares the raw
`e.source` with the raw `self.nickname` (plain `!=` on the event field). -/
def on_join (bot : SeshetBot) (source target userF hostF : String) : SeshetBot × Bool :=
  let chan := IRCstr.norm target
  let nick := IRCstr.norm source
  if source ≠ bot.nickname then
    let users0 := if dictContains bot.users nick then bot.users
                  else dictInsert bot.users nick ⟨nick, userF, hostF, []⟩
    match dictFind users0 nick with
    | none => ({ bot with users := users0 }, false)
    | some u =>
      match dictFind bot.channels chan with
      | none => ({ bot with users := users0 }, false)
      | some c =>
        let p := SeshetUser.join u c
        ({ bot with users := dictInsert users0 nick p.1,
                    channels := dictInsert bot.channels chan p.2 }, true)
  else (bot, true)

/-- The bulk-pruning loop of `on_part`/`on_kick` (bot.py lines 338-342):
`for u in self.users.values():` removes the channel from each user's list
and deletes users left with no channels.  Deleting from the dict being
iterated invalidates the iterator: the next call into it raises
RuntimeError (dictionary changed size during iteration), so at most one
user is ever deleted and the users after it are left untouched.  The
accumulator holds the already-visited entries in reverse. -/
def pruneGo (chan : String) (acc : List (String × SeshetUser)) :
    List (String × SeshetUser) → List (String × SeshetUser) × Bool
  | [] => (acc.reverse, true)
  | (k, u) :: rest =>
    let u2 := { u with channels := u.channels.erase chan }
    if u2.channels.isEmpty then
      (dictDelete (acc.reverse ++ (k, u2) :: rest) u2.nick, false)
    else pruneGo chan ((k, u2) :: acc) rest

/-- Entry point of the pruning loop. -/
def prunePass (chan : String) (users : List (String × SeshetUser)) :
    List (String × SeshetUser) × Bool :=
  pruneGo chan [] users

/-- `SeshetBot.on_part` (bot.py lines 321-342).  Looks up channel and user
(KeyError leaves the state unchanged), unlinks them, and when the parting
nick is the bot itself runs the pruning loop.  The comparison
`nick == self.nickname` is between an IRCstr and the raw nickname, hence
up to case-folding. -/
def on_part (bot : SeshetBot) (source target : String) : SeshetBot × Bool :=
  let chan := IRCstr.norm target
  let nick := IRCstr.norm source
  match dictFind bot.channels chan with
  | none => (bot, false)
  | some channel =>
    match dictFind bot.users nick with
    | none => (bot, false)
    | some user =>
      match SeshetUser.part user channel with
      | none => (bot, false)
      | some p =>
        let bot1 := { bot with channels := dictInsert bot.channels chan p.2,
                               users := dictInsert bot.users nick p.1 }
        if nick = IRCstr.norm bot.nickname then
          let pr := prunePass chan bot1.users
          ({ bot1 with users := pr.1 }, pr.2)
        else (bot1, true)

/-- `SeshetBot.on_kick` (bot.py lines 362-384).  The body is identical to
`on_part`; note that `nick = IRCstr(e.source)` keys on the KICKER (the
event source), not on the kicked user (`e.params[0]`, which is only
logged), so a kick unlinks the kicker and the self-part branch tests the
kicker against the bot's nickname. -/
def on_kick (bot : SeshetBot) (source target : String) : SeshetBot × Bool :=
  let chan := IRCstr.norm target
  let nick := IRCstr.norm source
  match dictFind bot.channels chan with
  | none => (bot, false)
  | some channel =>
    match dictFind bot.users nick with
    | none => (bot, false)
    | some user =>
      match SeshetUser.part user channel with
      | none => (bot, false)
      | some p =>
        let bot1 := { bot with channels := dictInsert bot.channels chan p.2,
                               users := dictInsert bot.users nick p.1 }
        if nick = IRCstr.norm bot.nickname then
          let pr := prunePass chan bot1.users
          ({ bot1 with users := pr.1 }, pr.2)
        else (bot1, true)

/-- The loop of `SeshetUser.quit` (bot.py lines 41-48): remove this nick
from each joined channel's user set.  `set.remove` raises KeyError when
the nick is absent, aborting the loop with the channels updated so far.
A name with no entry in the map stands for a reference to a channel
object no longer reachable from the session, whose mutation is
unobservable, and is skipped. -/
def quitGo (nick : String) (channels : List (String × SeshetChannel)) :
    List String → List (String × SeshetChannel) × Bool
  | [] => (channels, true)
  | cn :: rest =>
    match dictFind channels cn with
    | none => quitGo nick channels rest
    | some c =>
      if nick ∈ c.users then
        quitGo nick (dictInsert channels cn { c with users := c.users.erase nick }) rest
      else (channels, false)

/-- `SeshetBot.on_quit` (bot.py lines 344-357).  The log loop only reads
channel membership.  On success the user's channel list is cleared and the
entry deleted from the users map; on a KeyError inside `quit` the user
entry survives with its channel list intact. -/
def on_quit (bot : SeshetBot) (source : String) : SeshetBot × Bool :=
  let nick := IRCstr.norm source
  match dictFind bot.users nick with
  | none => (bot, false)
  | some u =>
    let q := quitGo u.nick bot.channels u.channels
    if q.2 then
      ({ bot with channels := q.1, users := dictDelete bot.users nick }, true)
    else
      ({ bot with channels := q.1 }, false)

/-- The loop of `SeshetUser.change_nick` (bot.py lines 50-58): in each
joined channel replace the old identity by the new one.  `set.remove`
raises KeyError when the old nick is absent, aborting with the channels
updated so far; names missing from the map are skipped as in `quitGo`. -/
def changeNickGo (oldN newN : String) (channels : List (String × SeshetChannel)) :
    List String → List (String × SeshetChannel) × Bool
  | [] => (channels, true)
  | cn :: rest =>
    match dictFind channels cn with
    | none => changeNickGo oldN newN channels rest
    | some c =>
      if oldN ∈ c.users then
        changeNickGo oldN newN
          (dictInsert channels cn { c with users := setAdd (c.users.erase oldN) newN }) rest
      else (channels, false)

/-- `SeshetBot.on_nick_change` (bot.py lines 386-401).  The log loop reads
`chan.user_list`, an attribute SeshetChannel does not define (the field is
`users`), so its first iteration raises AttributeError: whenever the
channel map is nonempty the handler dies before touching the roster.  With
no channels, `change_nick` updates the user's nick field (its loop body
never runs), the entry is stored under the new key and the old key is
deleted. -/
def on_nick_change (bot : SeshetBot) (source target : String) : SeshetBot × Bool :=
  let new_nick := IRCstr.norm target
  let old_nick := IRCstr.norm source
  match bot.channels with
  | _ :: _ => (bot, false)
  | [] =>
    match dictFind bot.users old_nick with
    | none => (bot, false)
    | some u =>
      let u2 := { u with nick := new_nick }
      let cg := changeNickGo u.nick new_nick bot.channels u.channels
      if cg.2 then
        ({ bot with channels := cg.1,
                    users := dictDelete (dictInsert (dictInsert bot.users old_nick u2) new_nick u2) old_nick }, true)
      else
        ({ bot with channels := cg.1, users := dictInsert bot.users old_nick u2 }, false)

/-- The roster-relevant inbound events of claim C1 (spec section 8): the
payload fields each handler reads. -/
inductive IrcEvent where
  | join (source target userF hostF : String)
  | part (source target : String)
  | kick (source target : String)
  | quit (source : String)
  | nick (source target : String)
deriving DecidableEq, Repr

/-- Apply one event's handler, keeping the (possibly partial) state it
leaves behind whether or not the handler completed. -/
def step (bot : SeshetBot) : IrcEvent → SeshetBot
  | .join s t u h => (on_join bot s t u h).1
  | .part s t => (on_part bot s t).1
  | .kick s t => (on_kick bot s t).1
  | .quit s => (on_quit bot s).1
  | .nick s t => (on_nick_change bot s t).1

/-- A fresh session: empty channel and user maps (SeshetBot.__init__). -/
def freshBot (n u r : String) : SeshetBot := ⟨n, u, r, [], []⟩

/-- The bidirectional membership invariant of the spec (section 3): for
every user and channel in the roster, the channel is in the user's list
iff the channel's user set contains the user's nick. -/
def rosterInv (bot : SeshetBot) : Prop :=
  ∀ pu ∈ bot.users, ∀ pc ∈ bot.channels,
    (pc.1 ∈ (pu.2).channels ↔ (pu.2).nick ∈ (pc.2).users)

/-- One module-configuration row (the `modules` table of the storage
collaborator), together with the command table `commands` that the
dispatch loop reads off the imported Python module of the same name
(`__import__(mod.name).commands`, an insertion-ordered mapping from
command word to handler; handlers are identified here by name).  The
field `cmdPrefix` is the source's `cmd_prefix`. -/
structure BotModule where
  name : String
  cmdPrefix : String
  whitelist : List String
  blacklist : List String
  enicks : List String
  dnicks : List String
  echannels : List String
  dchannels : List String
  commands : List (String × String)
deriving DecidableEq, Repr

/-- A message-shaped inbound event as `run_modules` reads it. -/
structure MsgEvent where
  command : String
  source : String
  target : String
  message : String
deriving DecidableEq, Repr

/-- The per-dispatch-pass context fixed before the module loop of
`run_modules` (bot.py lines 213-226): raw session identity, lowered
variants, the lowered original message `m_low`, and the member set of the
target channel when the target is channel-shaped (`chan_msg`). -/
structure DispatchCtx where
  botNickRaw : String
  botNickLow : String
  botUserLow : String
  botRealLow : String
  source : String
  target : String
  mLow : String
  chanNicks : Option (List String)
deriving DecidableEq, Repr

/-- Gate (a) of the module loop (bot.py lines 230-234): a whitelisted
source includes the module; the blacklist arm is a `pass` and contributes
nothing. -/
def gateUserList (ctx : DispatchCtx) (mod : BotModule) (fin : List BotModule) :
    List BotModule :=
  if ctx.source ∈ mod.whitelist then fin ++ [mod] else fin

/-- Gate (b) of the module loop, the address gate (bot.py lines 236-255),
acting on the running (fin_mods, e.message, for_us) state: modules whose
enicks contain the raw bot nickname are included when the event targets
the bot directly or the message is already marked addressed; otherwise
the lowered ORIGINAL message is tested against the lowered nickname,
username and real name in that order, and on the first hit the current
message loses that many leading code points plus any comma/colon/space
separators and for_us is set. -/
def gateAddress (ctx : DispatchCtx) (mod : BotModule) (st : List BotModule × String × Bool) :
    List BotModule × String × Bool :=
  if ctx.botNickRaw ∈ mod.enicks then
    if ctx.target = ctx.botNickRaw ∨ st.2.2 = true then (st.1 ++ [mod], st.2.1, st.2.2)
    else if pyStartsWith ctx.mLow ctx.botNickLow then
      (st.1 ++ [mod], pyLstripSep (pyDrop st.2.1 (pyLen ctx.botNickLow)), true)
    else if pyStartsWith ctx.mLow ctx.botUserLow then
      (st.1 ++ [mod], pyLstripSep (pyDrop st.2.1 (pyLen ctx.botUserLow)), true)
    else if pyStartsWith ctx.mLow ctx.botRealLow then
      (st.1 ++ [mod], pyLstripSep (pyDrop st.2.1 (pyLen ctx.botRealLow)), true)
    else st
  else st

/-- Gate (c) of the module loop, the channel-scope gate (bot.py lines
257-265), evaluated only for channel-shaped targets: disabled channel or
an intersecting disabled nick contributes nothing, else an enabled
channel or an intersecting enabled nick includes the module. -/
def gateChannel (ctx : DispatchCtx) (mod : BotModule) (fin : List BotModule) :
    List BotModule :=
  match ctx.chanNicks with
  | some nicks =>
    if ctx.target ∈ mod.dchannels then fin
    else if ircAny mod.dnicks nicks then fin
    else if ctx.target ∈ mod.echannels then fin ++ [mod]
    else if ircAny mod.enicks nicks then fin ++ [mod]
    else fin
  | none => fin

/-- One iteration of the module loop of `run_modules` (bot.py lines
229-265): the three gates in source order over the running
(fin_mods, e.message, for_us) state; any of them may append the same
module again. -/
def gateStep (ctx : DispatchCtx) (st : List BotModule × String × Bool) (mod : BotModule) :
    List BotModule × String × Bool :=
  let st1 : List BotModule × String × Bool := (gateUserList ctx mod st.1, st.2.1, st.2.2)
  let st2 := gateAddress ctx mod st1
  (gateChannel ctx mod st2.1, st2.2.1, st2.2.2)

/-- The inner command scan of the invocation loop (bot.py lines 274-277):
the first command word whose prefixed form equals `argv[0]` wins; reading
`argv[0]` of an empty token list raises IndexError. -/
def scanCommands (cp : String) (argv : List String) :
    List (String × String) → Except PyError (Option String)
  | [] => Except.ok none
  | (cmd, _f) :: rest =>
    match argv with
    | [] => Except.error PyError.indexError
    | a0 :: _ =>
      if cp ++ cmd = a0 then Except.ok (some cmd) else scanCommands cp argv rest

/-- The invocation loop of `run_modules` (bot.py lines 268-277): for each
selected module in order, run at most the first matching command; the
result collects the (module name, command word) invocations. -/
def runInvoke (argv : List String) : List BotModule → Except PyError (List (String × String))
  | [] => Except.ok []
  | mod :: rest =>
    match scanCommands (mod.cmdPrefix) argv (mod.commands) with
    | Except.error err => Except.error err
    | Except.ok hit =>
      match runInvoke argv rest with
      | Except.error err => Except.error err
      | Except.ok more =>
        match hit with
        | some cmd => Except.ok ((mod.name, cmd) :: more)
        | none => Except.ok more

/-- Everything one dispatch pass produces: the final module list, the
event's message after any prefix stripping, the shared for_us flag, and
the handler invocations. -/
structure DispatchResult where
  fin_mods : List BotModule
  message : String
  for_us : Bool
  invocations : List (String × String)
deriving DecidableEq, Repr

/-- The per-pass context of `run_modules` (bot.py lines 213-226): session
identity and its lowered forms, the event's source and target, the
lowered original message `m_low`, and the target channel's member set
when the target is channel-shaped. -/
def mkCtx (bot : SeshetBot) (e : MsgEvent) (chanNicks : Option (List String)) : DispatchCtx :=
  ⟨bot.nickname, pyLower bot.nickname, pyLower bot.user, pyLower bot.real_name,
   e.source, e.target, pyLower e.message, chanNicks⟩

/-- The tail of `run_modules` (bot.py lines 228-277): fold the three
gates over the module list starting from (empty, original message,
not-addressed), then run the invocation loop on `argv = m_low.split()` —
the token list of the LOWERED ORIGINAL message held in the context, not
of the possibly stripped message the fold produced. -/
def dispatchFinish (ctx : DispatchCtx) (origMsg : String) (mods : List BotModule) :
    Except PyError DispatchResult :=
  match runInvoke (pySplit ctx.mLow) ((mods.foldl (gateStep ctx) ([], origMsg, false))).1 with
  | Except.error err => Except.error err
  | Except.ok inv =>
    Except.ok ⟨(mods.foldl (gateStep ctx) ([], origMsg, false)).1,
               (mods.foldl (gateStep ctx) ([], origMsg, false)).2.1,
               (mods.foldl (gateStep ctx) ([], origMsg, false)).2.2, inv⟩

/-- `SeshetBot.run_modules` (bot.py lines 196-277) for a message-shaped
event.  `init_mods` is the module list the storage collaborator returns
for this event type.  For a channel-shaped target the member set is read
up front (KeyError when the channel is unknown); events that are not
message-shaped leave the loop variables untouched and invoke nothing. -/
def run_modules (bot : SeshetBot) (e : MsgEvent) (init_mods : List BotModule) :
    Except PyError DispatchResult :=
  if e.command = ("PRIVMSG") ∨ e.command = ("CTCP_ACTION") ∨ e.command = ("NOTICE") then
    if pyStartsWith e.target ("#") then
      match dictFind bot.channels (IRCstr.norm e.target) with
      | none => Except.error PyError.keyError
      | some ch => dispatchFinish (mkCtx bot e (some ch.users)) e.message init_mods
    else dispatchFinish (mkCtx bot e none) e.message init_mods
  else Except.ok ⟨[], e.message, false, []⟩

/-- `SeshetBot.get_unique_users` (bot.py lines 279-292): the target
channel's user set minus the union of every other channel's user set. -/
def get_unique_users (bot : SeshetBot) (chanRaw : String) : Except PyError (List String) :=
  match dictFind bot.channels (IRCstr.norm chanRaw) with
  | none => Except.error PyError.keyError
  | some c0 =>
    Except.ok (setDiff c0.users
      (bot.channels.foldl
        (fun acc p => if (p.2).name ≠ IRCstr.norm chanRaw then setUnion acc (p.2).users
                      else acc) []))

/-- The field environment a file-log line is formatted from: the `locals()`
the format template can mention, minus the locale date/time strings, which
come from the external clock and locale configuration and carry no claim
content. -/
structure LogRecord where
  etype : String
  source : String
  msg : String
  target : String
  hostmask : String
  params : String
deriving DecidableEq, Repr

/-- `SeshetBot._log_to_file` (bot.py lines 460-483): for privmsg/action
events addressed to the bot itself the target is rewritten to the source;
then an event type with no entry in `log_formats` writes nothing, while a
configured one appends a line formatted from the fields below (path
derivation, directory creation and the strftime calls are external I/O
and are not part of any claim). -/
def log_to_file (nickname : String) (log_formats : List (String × String))
    (etype source msg target hostmask params : String) : Option LogRecord :=
  let target2 := if target = nickname ∧ (etype = ("privmsg") ∨ etype = ("action"))
                 then source else target
  match dictFind log_formats etype with
  | some _fmt => some ⟨etype, source, msg, target2, hostmask, params⟩
  | none => none

/-- What one `on_message` call produces: the updated session state, the
record handed to `self.log`, and the outcome of the dispatch pass. -/
structure OnMessageResult where
  bot : SeshetBot
  logged : LogRecord
  dispatch : Except PyError DispatchResult
deriving Repr

/-- `SeshetBot.on_message` (bot.py lines 294-303): log the event, append
it to the activity cache only when the target is a known channel, then
run the dispatch pass.  `now` stands for the cache timestamp; `mods` is
the module list the storage collaborator supplies to `run_modules`. -/
def on_message (bot : SeshetBot) (source target message : String)
    (mods : List BotModule) (now : Nat) : OnMessageResult :=
  let logged : LogRecord := ⟨("privmsg"), source, message, target, (""), ("")⟩
  let bot1 :=
    match dictFind bot.channels (IRCstr.norm target) with
    | some ch => { bot with channels := dictInsert bot.channels (IRCstr.norm target)
                              (SeshetChannel.log_message ch now source message) }
    | none => bot
  ⟨bot1, logged, run_modules bot1 ⟨("PRIVMSG"), source, target, message⟩ mods⟩

/-- Fold a list of (timestamp, author, text) messages into a channel's
activity cache. -/
def insertAll (c : SeshetChannel) (es : List (Nat × String × String)) : SeshetChannel :=
  es.foldl (fun ch e => SeshetChannel.log_message ch e.1 e.2.1 e.2.2) c

/-- Claim C2's scenario module: command word ping under an empty command
prefix, enabled for the bot's nick. -/
def c2Mod : BotModule :=
  ⟨("pingmod"), (""), [], [], [("Bot")], [], [], [], [(("ping"), ("ping"))]⟩

/-- Claim C2's scenario session: nickname Bot, in #test with users a, b
and the bot itself (spec section 8's end-to-end scenario). -/
def c2Bot : SeshetBot :=
  ⟨("Bot"), ("botu"), ("Seshet the Scribe"),
   [(("#test"), ⟨("#test"), [("a"), ("b"), ("bot")], [], 100⟩)], []⟩

/-- Claim C2's scenario event: user A says "Bot: ping" in #test. -/
def c2Ev : MsgEvent := ⟨("PRIVMSG"), ("A"), ("#test"), ("Bot: ping")⟩

/-- Claim C4: a session where the bot's own nick has no entry in the
users map — the normal situation, since on_join refuses to add the bot —
while alice and bob are members of #c only. -/
def c4aBot : SeshetBot :=
  ⟨("Bot"), ("bu"), ("br"),
   [(("#c"), ⟨("#c"), [("bot"), ("alice"), ("bob")], [], 100⟩)],
   [(("alice"), ⟨("alice"), ("au"), ("ah"), [("#c")]⟩),
    (("bob"), ⟨("bob"), ("bu2"), ("bh2"), [("#c")]⟩)]⟩

/-- Claim C4: the same session but with a users-map entry for the bot
itself (reachable when a JOIN for the bot arrives with different case,
since on_join compares the raw source against the nickname but keys the
map case-insensitively). -/
def c4bBot : SeshetBot :=
  ⟨("Bot"), ("bu"), ("br"),
   [(("#c"), ⟨("#c"), [("bot"), ("alice"), ("bob")], [], 100⟩)],
   [(("bot"), ⟨("bot"), ("bu"), ("bh"), [("#c")]⟩),
    (("alice"), ⟨("alice"), ("au"), ("ah"), [("#c")]⟩),
    (("bob"), ⟨("bob"), ("bu2"), ("bh2"), [("#c")]⟩)]⟩

/-- Claim C7: a session with one channel and one known user alice. -/
def c7Bot : SeshetBot :=
  ⟨("Bot"), ("bu"), ("br"),
   [(("#a"), ⟨("#a"), [("alice")], [], 100⟩)],
   [(("alice"), ⟨("alice"), ("au"), ("ah"), [("#a")]⟩)]⟩

/-- Claim C6: a session whose channel #c already exists with a member and
an accumulated message-log entry. -/
def c6Bot : SeshetBot :=
  ⟨("Bot"), ("u"), ("r"),
   [(("#c"), ⟨("#c"), [("a")], [(5, ("a"), ("hi"))], 100⟩)], []⟩

/-- Claim C3's witness: first module, enabled for nick Seshet. -/
def c3Mod1 : BotModule := ⟨("m1"), (""), [], [], [("Seshet")], [], [], [], []⟩

/-- Claim C3's witness: a second module checked later in the same pass. -/
def c3Mod2 : BotModule := ⟨("m2"), (""), [], [], [("Seshet")], [], [], [], []⟩

/-- Claim C3's witness channel. -/
def c3Chan : SeshetChannel := ⟨("#chan"), [("zed")], [], 100⟩

/-- Claim C3's witness session: nickname Seshet, channel #chan known. -/
def c3Bot : SeshetBot := ⟨("Seshet"), ("su"), ("sr"), [(("#chan"), c3Chan)], []⟩

/-- Claim C8's witness: channel #a with members alice and bob. -/
def w8ChanA : SeshetChannel := ⟨("#a"), [("alice"), ("bob")], [], 100⟩

/-- Claim C8's witness: channel #b with member bob. -/
def w8ChanB : SeshetChannel := ⟨("#b"), [("bob")], [], 100⟩

/-- Claim C8's witness session: alice is unique to #a. -/
def w8Bot : SeshetBot := ⟨("Bot"), ("u"), ("r"), [(("#a"), w8ChanA), (("#b"), w8ChanB)], []⟩

/-- A lookup hit after a dict store at the same key. -/
theorem dictFind_insert_self {α : Type} (m : List (String × α)) (k : String) (v : α) :
    dictFind (dictInsert m k v) k = some v := by
  induction m with
  | nil => simp [dictInsert, dictFind]
  | cons p t ih =>
    obtain ⟨k1, v1⟩ := p
    by_cases h : k1 = k
    · simp [dictInsert, h, dictFind]
    · simp [dictInsert, h, dictFind, ih]

/-- Storing the same value twice at the same key is one store. -/
theorem dictInsert_idem {α : Type} (m : List (String × α)) (k : String) (v : α) :
    dictInsert (dictInsert m k v) k v = dictInsert m k v := by
  induction m with
  | nil => simp [dictInsert]
  | cons p t ih =>
    obtain ⟨k1, v1⟩ := p
    by_cases h : k1 = k
    · simp [dictInsert, h]
    · simp [dictInsert, h, ih]

/-- The quit loop cannot create channels: over an empty channel map it
returns the empty map. -/
theorem quitGo_channels_nil (nick : String) (l : List String) :
    quitGo nick [] l = ([], true) := by
  induction l with
  | nil => rfl
  | cons cn rest ih => simp [quitGo, dictFind, ih]

/-- The nick-change loop cannot create channels either. -/
theorem changeNickGo_channels_nil (oldN newN : String) (l : List String) :
    changeNickGo oldN newN [] l = ([], true) := by
  induction l with
  | nil => rfl
  | cons cn rest ih => simp [changeNickGo, dictFind, ih]

/-- None of the JOIN/PART/KICK/QUIT/NICK handlers creates a channel:
channel objects enter the map only through the name-reply handler, which
is not among these events. -/
theorem step_channels_nil (bot : SeshetBot) (ev : IrcEvent) (h : bot.channels = []) :
    (step bot ev).channels = [] := by
  obtain ⟨n, u, r, chs, us⟩ := bot
  simp only at h
  subst h
  cases ev with
  | join s t uF hF =>
    simp only [step, on_join]
    split
    · split
      · rfl
      · rfl
    · rfl
  | part s t => rfl
  | kick s t => rfl
  | quit s =>
    simp only [step, on_quit]
    split
    · rfl
    · rename_i uu _
      rw [quitGo_channels_nil uu.nick uu.channels]
      rfl
  | nick s t =>
    simp only [step, on_nick_change]
    split
    · rfl
    · rename_i uu _
      rw [changeNickGo_channels_nil uu.nick (IRCstr.norm t) uu.channels]
      rfl

/-- Folding any event sequence over a channel-free session leaves the
channel map empty. -/
theorem foldl_step_channels_nil (evs : List IrcEvent) (bot : SeshetBot)
    (h : bot.channels = []) : ((evs.foldl step bot).channels = []) := by
  induction evs generalizing bot with
  | nil => exact h
  | cons e t ih => exact ih (step bot e) (step_channels_nil bot e h)

/-- C1: for every sequence of JOIN/PART/KICK/QUIT/NICK events applied to a
fresh roster (empty users and channels maps), after each event the
bidirectional membership invariant holds: a channel is in a user's list
iff the channel's user set contains the user's nick.  (These five events
never create a channel — channels are created only by the name-reply
handler — so every reachable channel map is empty and the invariant is
maintained at every step, whether or not the handler completed.) -/
theorem C1_membership_invariant (n u r : String) (evs : List IrcEvent) :
    rosterInv (evs.foldl step (freshBot n u r)) := by
  intro pu _hu pc hc
  have h2 : ((evs.foldl step (freshBot n u r)).channels = []) :=
    foldl_step_channels_nil evs (freshBot n u r) rfl
  rw [h2] at hc
  exact absurd hc (List.not_mem_nil pc)

/-- The eviction loop computes a drop from the front: what survives is
the suffix that fits under the cap. -/
theorem logTrim_eq_drop (cap : Nat) (l : List (Nat × String × String)) :
    logTrim cap l = l.drop (l.length - cap) := by
  induction l with
  | nil => simp [logTrim]
  | cons x xs ih =>
    by_cases h : xs.length + 1 > cap
    · have h2 : xs.length + 1 - cap = (xs.length - cap) + 1 := by omega
      simp only [logTrim, if_pos h, List.length_cons, h2, List.drop_succ_cons]
      exact ih
    · have h2 : xs.length + 1 - cap = 0 := by omega
      simp only [logTrim, if_neg h, List.length_cons, h2, List.drop_zero]

/-- Folding inserts through `log_message` keeps a sliding window: starting
under the cap, the log is always the fitting suffix of everything ever
appended (normalized authors), in insertion order. -/
theorem insertAll_message_log (es : List (Nat × String × String)) :
    ∀ c : SeshetChannel, c.message_log.length ≤ c.log_size →
    (insertAll c es).message_log
      = (c.message_log ++ es.map (fun e => (e.1, IRCstr.norm e.2.1, e.2.2))).drop
          ((c.message_log.length + es.length) - c.log_size) := by
  induction es with
  | nil =>
    intro c h
    simp [insertAll, Nat.sub_eq_zero_of_le h]
  | cons e t ih =>
    intro c h
    have hc1size : (c.log_message e.1 e.2.1 e.2.2).log_size = c.log_size := rfl
    have hc1log : (c.log_message e.1 e.2.1 e.2.2).message_log
        = (c.message_log ++ [(e.1, IRCstr.norm e.2.1, e.2.2)]).drop
            (c.message_log.length + 1 - c.log_size) := by
      simp [SeshetChannel.log_message, logTrim_eq_drop]
    have hc1len : (c.log_message e.1 e.2.1 e.2.2).message_log.length
        = c.message_log.length + 1 - (c.message_log.length + 1 - c.log_size) := by
      rw [hc1log, List.length_drop]
      simp
    have hle : (c.log_message e.1 e.2.1 e.2.2).message_log.length ≤ c.log_size := by
      rw [hc1len]
      omega
    have ihc := ih (c.log_message e.1 e.2.1 e.2.2) (by rw [hc1size]; exact hle)
    have hfold : insertAll c (e :: t) = insertAll (c.log_message e.1 e.2.1 e.2.2) t := rfl
    have hdle : c.message_log.length + 1 - c.log_size
        ≤ (c.message_log ++ [(e.1, IRCstr.norm e.2.1, e.2.2)]).length := by
      rw [List.length_append, List.length_singleton]
      omega
    rw [hfold, ihc, hc1size, hc1len, hc1log]
    rw [← List.drop_append_of_le_length hdle, List.drop_drop]
    simp only [List.map_cons, List.length_cons, List.append_assoc, List.singleton_append]
    congr 1
    omega

/-- C5: the activity cache is bounded and FIFO — a `log_message` call
never leaves more than `log_size` entries, and inserting any sequence of
messages into a fresh channel retains exactly the newest `log_size` of
them, in insertion order (so with N+k inserts the oldest k are gone). -/
theorem C5_activity_cache_cap_fifo :
    (∀ (cap : Nat) (name : String) (users : List String)
       (es : List (Nat × String × String)),
      (insertAll ⟨name, users, [], cap⟩ es).message_log
        = (es.map (fun e => (e.1, IRCstr.norm e.2.1, e.2.2))).drop (es.length - cap))
    ∧ (∀ (c : SeshetChannel) (now : Nat) (u m : String),
        ((SeshetChannel.log_message c now u m).message_log.length ≤ c.log_size)) := by
  constructor
  · intro cap name users es
    have h := insertAll_message_log es ⟨name, users, [], cap⟩ (by simp)
    simpa using h
  · intro c now u m
    simp only [SeshetChannel.log_message, logTrim_eq_drop, List.length_drop]
    simp
    omega


/-- The user-list gate only appends. -/
theorem gateUserList_mem (ctx : DispatchCtx) (mod : BotModule) (fin : List BotModule)
    (m : BotModule) (h : m ∈ fin) : m ∈ gateUserList ctx mod fin := by
  simp only [gateUserList]
  split
  · exact List.mem_append_left _ h
  · exact h

/-- The address gate only appends. -/
theorem gateAddress_mem (ctx : DispatchCtx) (mod : BotModule)
    (st : List BotModule × String × Bool) (m : BotModule) (h : m ∈ st.1) :
    m ∈ (gateAddress ctx mod st).1 := by
  simp only [gateAddress]
  split
  · split
    · exact List.mem_append_left _ h
    · split
      · exact List.mem_append_left _ h
      · split
        · exact List.mem_append_left _ h
        · split
          · exact List.mem_append_left _ h
          · exact h
  · exact h

/-- The channel-scope gate only appends. -/
theorem gateChannel_mem (ctx : DispatchCtx) (mod : BotModule) (fin : List BotModule)
    (m : BotModule) (h : m ∈ fin) : m ∈ gateChannel ctx mod fin := by
  simp only [gateChannel]
  split
  · split
    · exact h
    · split
      · exact h
      · split
        · exact List.mem_append_left _ h
        · split
          · exact List.mem_append_left _ h
          · exact h
  · exact h

/-- A full gate step only appends. -/
theorem gateStep_mem (ctx : DispatchCtx) (st : List BotModule × String × Bool)
    (mod m : BotModule) (h : m ∈ st.1) : m ∈ (gateStep ctx st mod).1 :=
  gateChannel_mem ctx mod _ m
    (gateAddress_mem ctx mod (gateUserList ctx mod st.1, st.2.1, st.2.2) m
      (gateUserList_mem ctx mod st.1 m h))

/-- With for_us already set, the address gate leaves the message alone. -/
theorem gateAddress_msg (ctx : DispatchCtx) (mod : BotModule) (fin : List BotModule)
    (msg : String) : (gateAddress ctx mod (fin, msg, true)).2.1 = msg := by
  simp only [gateAddress]
  split
  · rw [if_pos (Or.inr trivial)]
  · rfl

/-- With for_us already set, the address gate keeps it set. -/
theorem gateAddress_flag (ctx : DispatchCtx) (mod : BotModule) (fin : List BotModule)
    (msg : String) : (gateAddress ctx mod (fin, msg, true)).2.2 = true := by
  simp only [gateAddress]
  split
  · rw [if_pos (Or.inr trivial)]
  · rfl

/-- With for_us already set, a module enabled for the bot's nick is
included by the already-addressed branch. -/
theorem gateAddress_incl (ctx : DispatchCtx) (mod : BotModule) (fin : List BotModule)
    (msg : String) (hen : ctx.botNickRaw ∈ mod.enicks) :
    mod ∈ (gateAddress ctx mod (fin, msg, true)).1 := by
  simp only [gateAddress, if_pos hen]
  rw [if_pos (Or.inr trivial)]
  exact List.mem_append_right _ (List.mem_singleton.mpr rfl)

/-- A gate step with for_us set does not rewrite the message. -/
theorem gateStep_msg (ctx : DispatchCtx) (fin : List BotModule) (msg : String)
    (mod : BotModule) : (gateStep ctx (fin, msg, true) mod).2.1 = msg :=
  gateAddress_msg ctx mod (gateUserList ctx mod fin) msg

/-- A gate step with for_us set keeps it set. -/
theorem gateStep_flag (ctx : DispatchCtx) (fin : List BotModule) (msg : String)
    (mod : BotModule) : (gateStep ctx (fin, msg, true) mod).2.2 = true :=
  gateAddress_flag ctx mod (gateUserList ctx mod fin) msg

/-- A gate step with for_us set includes an enicks-enabled module. -/
theorem gateStep_incl (ctx : DispatchCtx) (fin : List BotModule) (msg : String)
    (mod : BotModule) (hen : ctx.botNickRaw ∈ mod.enicks) :
    mod ∈ (gateStep ctx (fin, msg, true) mod).1 :=
  gateChannel_mem ctx mod _ mod (gateAddress_incl ctx mod (gateUserList ctx mod fin) msg hen)

/-- Over the rest of a dispatch pass that is already addressed: the
message and flag are stable, fin_mods only grows, and every later module
enabled for the bot's nick is included without re-stripping. -/
theorem gateFold_addressed (ctx : DispatchCtx) (mods : List BotModule) :
    ∀ (fin : List BotModule) (msg : String),
    (mods.foldl (gateStep ctx) (fin, msg, true)).2.1 = msg
      ∧ (mods.foldl (gateStep ctx) (fin, msg, true)).2.2 = true
      ∧ (∀ m ∈ fin, m ∈ (mods.foldl (gateStep ctx) (fin, msg, true)).1)
      ∧ (∀ m ∈ mods, ctx.botNickRaw ∈ m.enicks →
          m ∈ (mods.foldl (gateStep ctx) (fin, msg, true)).1) := by
  induction mods with
  | nil =>
    intro fin msg
    exact ⟨rfl, rfl, fun m hm => hm, fun m hm => absurd hm (List.not_mem_nil m)⟩
  | cons mo rest ih =>
    intro fin msg
    have hg : gateStep ctx (fin, msg, true) mo
        = ((gateStep ctx (fin, msg, true) mo).1, msg, true) :=
      Prod.ext rfl (Prod.ext (gateStep_msg ctx fin msg mo) (gateStep_flag ctx fin msg mo))
    have hfold : (mo :: rest).foldl (gateStep ctx) (fin, msg, true)
        = rest.foldl (gateStep ctx) ((gateStep ctx (fin, msg, true) mo).1, msg, true) := by
      rw [List.foldl_cons, hg]
    obtain ⟨ih1, ih2, ih3, ih4⟩ := ih ((gateStep ctx (fin, msg, true) mo).1) msg
    refine ⟨by rw [hfold]; exact ih1, by rw [hfold]; exact ih2, ?_, ?_⟩
    · intro m hm
      rw [hfold]
      exact ih3 m (gateStep_mem ctx (fin, msg, true) mo m hm)
    · intro m hm hmen
      rcases List.mem_cons.mp hm with hm1 | hm2
      · subst hm1
        rw [hfold]
        exact ih3 m (gateStep_incl ctx fin msg m hmen)
      · rw [hfold]
        exact ih4 m hm2 hmen

/-- The first gate step of an addressed channel message: with for_us still
clear, a module enabled for the bot's nick whose lowered nickname prefixes
the lowered message strips the prefix from the current message, sets
for_us, and is included. -/
theorem gateStep_strip (ctx : DispatchCtx) (fin : List BotModule) (msg : String)
    (mod : BotModule) (hen : ctx.botNickRaw ∈ mod.enicks)
    (hne : ¬ ctx.target = ctx.botNickRaw)
    (hsw : pyStartsWith ctx.mLow ctx.botNickLow = true) :
    (gateStep ctx (fin, msg, false) mod).2.1
        = pyLstripSep (pyDrop msg (pyLen ctx.botNickLow))
      ∧ (gateStep ctx (fin, msg, false) mod).2.2 = true
      ∧ mod ∈ (gateStep ctx (fin, msg, false) mod).1 := by
  have haddr : gateAddress ctx mod (gateUserList ctx mod fin, msg, false)
      = (gateUserList ctx mod fin ++ [mod],
         pyLstripSep (pyDrop msg (pyLen ctx.botNickLow)), true) := by
    simp only [gateAddress, if_pos hen]
    split
    · rename_i hc
      exact absurd hc (by simp [hne])
    · simp [hsw]
  refine ⟨?_, ?_, ?_⟩
  · show (gateAddress ctx mod (gateUserList ctx mod fin, msg, false)).2.1 = _
    rw [haddr]
  · show (gateAddress ctx mod (gateUserList ctx mod fin, msg, false)).2.2 = true
    rw [haddr]
  · show mod ∈ gateChannel ctx mod (gateAddress ctx mod (gateUserList ctx mod fin, msg, false)).1
    refine gateChannel_mem ctx mod _ mod ?_
    rw [haddr]
    exact List.mem_append_right _ (List.mem_singleton.mpr rfl)

/-- The invocation tail does not alter the selection fold's outcome: an
ok result's fields are exactly the fold's fields. -/
theorem dispatchFinish_ok (ctx : DispatchCtx) (origMsg : String) (mods : List BotModule)
    (r : DispatchResult) (h : dispatchFinish ctx origMsg mods = Except.ok r) :
    r.fin_mods = (mods.foldl (gateStep ctx) ([], origMsg, false)).1
      ∧ r.message = (mods.foldl (gateStep ctx) ([], origMsg, false)).2.1
      ∧ r.for_us = (mods.foldl (gateStep ctx) ([], origMsg, false)).2.2 := by
  unfold dispatchFinish at h
  split at h
  · exact Except.noConfusion h
  · have hr := (Except.ok.inj h).symm
    subst hr
    exact ⟨rfl, rfl, rfl⟩

/-- C3: for a module with the bot's nickname (Seshet) in enicks and the
channel message "Seshet: hello" in #chan, the dispatch pass selects the
module, rewrites the event's message to "hello" (stripping the matched
prefix and the comma/colon/space separators), marks the pass as
addressed, and every later module enabled for the bot's nick rides the
already-addressed branch without stripping again: the final message of
the pass is still "hello" whatever modules follow. -/
theorem C3_address_gate_strips_once
    (bot : SeshetBot) (m1 : BotModule) (rest : List BotModule) (ch : SeshetChannel)
    (src : String) (r : DispatchResult)
    (hnick : bot.nickname = ("Seshet"))
    (hch : dictFind bot.channels (IRCstr.norm ("#chan")) = some ch)
    (hen : ("Seshet") ∈ m1.enicks)
    (hrun : run_modules bot ⟨("PRIVMSG"), src, ("#chan"), ("Seshet: hello")⟩ (m1 :: rest)
        = Except.ok r) :
    r.message = ("hello") ∧ r.for_us = true ∧ m1 ∈ r.fin_mods
      ∧ ∀ m ∈ rest, ("Seshet") ∈ m.enicks → m ∈ r.fin_mods := by
  unfold run_modules at hrun
  rw [if_pos (Or.inl rfl)] at hrun
  rw [if_pos (by decide : pyStartsWith ("#chan") ("#") = true)] at hrun
  dsimp only at hrun
  split at hrun
  · exact Except.noConfusion hrun
  · rename_i ch2 heq
    have hcheq : ch = ch2 := Option.some.inj (hch.symm.trans heq)
    subst hcheq
    obtain ⟨hfin, hmsg, hfu⟩ := dispatchFinish_ok _ _ _ _ hrun
    have hctxen : (mkCtx bot ⟨("PRIVMSG"), src, ("#chan"), ("Seshet: hello")⟩
        (some ch.users)).botNickRaw ∈ m1.enicks := by
      show bot.nickname ∈ m1.enicks
      rw [hnick]
      exact hen
    have hctxne : ¬ (mkCtx bot ⟨("PRIVMSG"), src, ("#chan"), ("Seshet: hello")⟩
          (some ch.users)).target
        = (mkCtx bot ⟨("PRIVMSG"), src, ("#chan"), ("Seshet: hello")⟩
            (some ch.users)).botNickRaw := by
      show ¬ ("#chan") = bot.nickname
      rw [hnick]
      decide
    have hctxsw : pyStartsWith
        (mkCtx bot ⟨("PRIVMSG"), src, ("#chan"), ("Seshet: hello")⟩ (some ch.users)).mLow
        (mkCtx bot ⟨("PRIVMSG"), src, ("#chan"), ("Seshet: hello")⟩
          (some ch.users)).botNickLow = true := by
      show pyStartsWith (pyLower ("Seshet: hello")) (pyLower bot.nickname) = true
      rw [hnick]
      decide
    have hstrip := gateStep_strip
      (mkCtx bot ⟨("PRIVMSG"), src, ("#chan"), ("Seshet: hello")⟩ (some ch.users))
      [] ("Seshet: hello") m1 hctxen hctxne hctxsw
    have hval : pyLstripSep (pyDrop ("Seshet: hello")
        (pyLen (mkCtx bot ⟨("PRIVMSG"), src, ("#chan"), ("Seshet: hello")⟩
          (some ch.users)).botNickLow)) = ("hello") := by
      show pyLstripSep (pyDrop ("Seshet: hello") (pyLen (pyLower bot.nickname))) = ("hello")
      rw [hnick]
      decide
    have hg1 : gateStep
        (mkCtx bot ⟨("PRIVMSG"), src, ("#chan"), ("Seshet: hello")⟩ (some ch.users))
        ([], ("Seshet: hello"), false) m1
        = ((gateStep (mkCtx bot ⟨("PRIVMSG"), src, ("#chan"), ("Seshet: hello")⟩
            (some ch.users)) ([], ("Seshet: hello"), false) m1).1, ("hello"), true) :=
      Prod.ext rfl (Prod.ext (hstrip.1.trans hval) hstrip.2.1)
    have hfold : (m1 :: rest).foldl
        (gateStep (mkCtx bot ⟨("PRIVMSG"), src, ("#chan"), ("Seshet: hello")⟩
          (some ch.users))) ([], ("Seshet: hello"), false)
        = rest.foldl (gateStep (mkCtx bot ⟨("PRIVMSG"), src, ("#chan"), ("Seshet: hello")⟩
            (some ch.users)))
            ((gateStep (mkCtx bot ⟨("PRIVMSG"), src, ("#chan"), ("Seshet: hello")⟩
              (some ch.users)) ([], ("Seshet: hello"), false) m1).1, ("hello"), true) := by
      rw [List.foldl_cons, hg1]
    obtain ⟨hf1, hf2, hf3, hf4⟩ := gateFold_addressed
      (mkCtx bot ⟨("PRIVMSG"), src, ("#chan"), ("Seshet: hello")⟩ (some ch.users)) rest
      ((gateStep (mkCtx bot ⟨("PRIVMSG"), src, ("#chan"), ("Seshet: hello")⟩
        (some ch.users)) ([], ("Seshet: hello"), false) m1).1) ("hello")
    refine ⟨?_, ?_, ?_, ?_⟩
    · rw [hmsg, hfold]
      exact hf1
    · rw [hfu, hfold]
      exact hf2
    · rw [hfin, hfold]
      exact hf3 m1 hstrip.2.2
    · intro m hm hmen
      rw [hfin, hfold]
      refine hf4 m hm ?_
      show bot.nickname ∈ m.enicks
      rw [hnick]
      exact hmen

/-- Witness for C3 at a concrete pass: nickname Seshet, channel #chan,
two modules both enabled for Seshet; the pass yields message "hello",
the addressed flag, and both modules selected. -/
theorem C3_address_gate_witness :
    (⟨[c3Mod1, c3Mod2], ("hello"), true, []⟩ : DispatchResult).message = ("hello")
      ∧ (⟨[c3Mod1, c3Mod2], ("hello"), true, []⟩ : DispatchResult).for_us = true
      ∧ c3Mod1 ∈ (⟨[c3Mod1, c3Mod2], ("hello"), true, []⟩ : DispatchResult).fin_mods
      ∧ ∀ m ∈ [c3Mod2], ("Seshet") ∈ m.enicks
          → m ∈ (⟨[c3Mod1, c3Mod2], ("hello"), true, []⟩ : DispatchResult).fin_mods :=
  C3_address_gate_strips_once c3Bot c3Mod1 [c3Mod2] c3Chan ("alice")
    ⟨[c3Mod1, c3Mod2], ("hello"), true, []⟩ rfl rfl (by decide) rfl

/-- C2 (code bug): in the spec's own end-to-end scenario — channel
message "Bot: ping" addressed to bot nickname Bot, a module with
enabled_nicks containing Bot, empty command prefix and command word ping
— the dispatch pass selects the module (twice, via the address and
channel gates) and strips the message to "ping", but the invocation loop
matches commands against the first token of the LOWERED ORIGINAL message
("bot:"), never the stripped one, so the handler fires zero times instead
of the claimed exactly once. -/
theorem C2_addressed_command_not_invoked :
    run_modules c2Bot c2Ev [c2Mod]
      = Except.ok ⟨[c2Mod, c2Mod], ("ping"), true, []⟩ := rfl

/-- C4 (code bug): a PART of the bot's own nick from #c.  In the usual
session (c4aBot) the bot has no users-map entry at all — on_join never
adds the bot — so the handler dies on the KeyError of
`self.users[nick]` before any pruning: the state is returned unchanged
with alice and bob still holding #c.  Even when the bot's entry exists
(c4bBot), the pruning loop deletes that entry from the dict it is
iterating and the iterator raises RuntimeError on its next step: alice
and bob survive with #c still in their channel lists, though the claim
requires every user whose only channel was #c to be pruned. -/
theorem C4_self_part_prune_aborts :
    on_part c4aBot ("Bot") ("#c") = (c4aBot, false)
      ∧ (on_part c4bBot ("Bot") ("#c")).2 = false
      ∧ dictFind (on_part c4bBot ("Bot") ("#c")).1.users ("bot") = none
      ∧ dictFind (on_part c4bBot ("Bot") ("#c")).1.users ("alice")
          = some ⟨("alice"), ("au"), ("ah"), [("#c")]⟩
      ∧ dictFind (on_part c4bBot ("Bot") ("#c")).1.users ("bob")
          = some ⟨("bob"), ("bu2"), ("bh2"), [("#c")]⟩ :=
  ⟨rfl, rfl, rfl, rfl, rfl⟩

/-- Counterexample to C6 as stated: #c already exists with an accumulated
message-log entry, yet the names-reply handler replaces it with a fresh
channel, wiping the log — it does not create "only if absent". -/
theorem C6_names_reply_resets_log :
    (dictFind c6Bot.channels ("#c")).map SeshetChannel.message_log
        = some [(5, ("a"), ("hi"))]
      ∧ (dictFind (add_channel_names c6Bot ("#c") [("b")]).channels ("#c")).map
          SeshetChannel.message_log = some []
      ∧ (dictFind (add_channel_names c6Bot ("#c") [("b")]).channels ("#c")).map
          SeshetChannel.message_log
        ≠ (dictFind c6Bot.channels ("#c")).map SeshetChannel.message_log := by
  refine ⟨rfl, rfl, ?_⟩
  decide

/-- C6 amended: the names-reply handler unconditionally stores a fresh
channel under the normalized name — user set from the received nick list,
empty message log, default cap — replacing any existing entry; and it is
idempotent per channel name: applying it twice leaves the session exactly
as applying it once. -/
theorem C6_names_reply_idempotent (bot : SeshetBot) (chanRaw : String)
    (names : List String) :
    add_channel_names (add_channel_names bot chanRaw names) chanRaw names
        = add_channel_names bot chanRaw names
      ∧ dictFind (add_channel_names bot chanRaw names).channels (IRCstr.norm chanRaw)
        = some ⟨IRCstr.norm chanRaw, setOfList (names.map IRCstr.norm), [], 100⟩ := by
  constructor
  · simp only [add_channel_names, dictInsert_idem]
  · simp only [add_channel_names]
    exact dictFind_insert_self _ _ _

/-- C7 (code bug): a NICK event for known user alice in a session with
one channel.  The handler's log loop reads `chan.user_list`, an attribute
SeshetChannel does not have, so it raises AttributeError before touching
the roster: the state is unchanged and no entry is re-keyed to bob. -/
theorem C7_nick_change_raises_attribute_error :
    on_nick_change c7Bot ("alice") ("bob") = (c7Bot, false)
      ∧ dictFind c7Bot.users ("bob") = none :=
  ⟨rfl, rfl⟩

/-- Membership through `set.add`. -/
theorem setAdd_mem (s : List String) (x m : String) :
    m ∈ setAdd s x ↔ m ∈ s ∨ m = x := by
  by_cases h : x ∈ s
  · simp only [setAdd, if_pos h]
    constructor
    · exact Or.inl
    · rintro (hm | hm)
      · exact hm
      · exact hm ▸ h
  · simp [setAdd, if_neg h]

/-- Membership through set union. -/
theorem setUnion_mem (b : List String) :
    ∀ (a : List String) (m : String), m ∈ setUnion a b ↔ m ∈ a ∨ m ∈ b := by
  induction b with
  | nil => intro a m; simp [setUnion]
  | cons x t ih =>
    intro a m
    have hstep : setUnion a (x :: t) = setUnion (setAdd a x) t := rfl
    rw [hstep, ih (setAdd a x) m, setAdd_mem]
    simp only [List.mem_cons]
    tauto

/-- Membership through set difference. -/
theorem setDiff_mem (a b : List String) (x : String) :
    x ∈ setDiff a b ↔ x ∈ a ∧ x ∉ b := by
  simp [setDiff, List.mem_filter, List.elem_iff]

/-- Membership in the other-channels union built by get_unique_users. -/
theorem otherFold_mem (chan : String) (l : List (String × SeshetChannel)) :
    ∀ (acc : List String) (x : String),
    (x ∈ l.foldl (fun acc p => if (p.2).name ≠ chan then setUnion acc (p.2).users
                               else acc) acc
      ↔ x ∈ acc ∨ ∃ p ∈ l, (p.2).name ≠ chan ∧ x ∈ (p.2).users) := by
  induction l with
  | nil => intro acc x; simp
  | cons p t ih =>
    intro acc x
    simp only [List.foldl_cons]
    by_cases hp : (p.2).name ≠ chan
    · rw [if_pos hp, ih (setUnion acc (p.2).users) x, setUnion_mem]
      simp only [List.exists_mem_cons_iff]
      tauto
    · rw [if_neg hp, ih acc x]
      simp only [List.exists_mem_cons_iff]
      tauto

/-- C8: for a known channel, get_unique_users returns exactly the
identities in that channel's user set that appear in no other known
channel's user set (the set difference against the union over all other
channels). -/
theorem C8_unique_users (bot : SeshetBot) (chanRaw : String) (c0 : SeshetChannel)
    (s : List String)
    (hc : dictFind bot.channels (IRCstr.norm chanRaw) = some c0)
    (hok : get_unique_users bot chanRaw = Except.ok s) :
    ∀ x, x ∈ s ↔ (x ∈ c0.users
      ∧ ∀ p ∈ bot.channels, (p.2).name ≠ IRCstr.norm chanRaw → x ∉ (p.2).users) := by
  unfold get_unique_users at hok
  split at hok
  · exact Except.noConfusion hok
  · rename_i c1 heq
    have hceq : c0 = c1 := Option.some.inj (hc.symm.trans heq)
    subst hceq
    have hs := (Except.ok.inj hok).symm
    subst hs
    intro x
    rw [setDiff_mem, otherFold_mem (IRCstr.norm chanRaw) bot.channels [] x]
    simp only [List.not_mem_nil, false_or]
    constructor
    · rintro ⟨hx, hno⟩
      refine ⟨hx, ?_⟩
      intro p hp hpn hxp
      exact hno ⟨p, hp, hpn, hxp⟩
    · rintro ⟨hx, hall⟩
      refine ⟨hx, ?_⟩
      rintro ⟨p, hp, hpn, hxp⟩
      exact hall p hp hpn hxp

/-- Witness for C8: in a session with #a = {alice, bob} and #b = {bob},
alice is the sole identity unique to #a. -/
theorem C8_unique_users_witness :
    ("alice") ∈ [("alice")] ↔ (("alice") ∈ w8ChanA.users
      ∧ ∀ p ∈ w8Bot.channels, (p.2).name ≠ IRCstr.norm ("#a")
          → ("alice") ∉ (p.2).users) :=
  C8_unique_users w8Bot ("#a") w8ChanA [("alice")] rfl rfl ("alice")

/-- C9: under the file-strategy logger, a privmsg/action whose target is
the bot's own nickname is recorded with the sender as target; and an
event kind with no entry in log_formats writes nothing at all. -/
theorem C9_file_log (nickname : String) (formats : List (String × String))
    (etype source msg target hostmask params : String) :
    (dictFind formats etype = none →
      log_to_file nickname formats etype source msg target hostmask params = none)
    ∧ ((etype = ("privmsg") ∨ etype = ("action")) → target = nickname →
        ∀ rec, log_to_file nickname formats etype source msg target hostmask params
            = some rec → rec.target = source) := by
  constructor
  · intro hnone
    unfold log_to_file
    rw [hnone]
  · intro hml htgt rec hsome
    unfold log_to_file at hsome
    rw [if_pos ⟨htgt, hml⟩] at hsome
    split at hsome
    · have hr := (Option.some.inj hsome).symm
      subst hr
      rfl
    · exact Option.noConfusion hsome

/-- Witness for C9: the unconfigured kind quit writes nothing, and a
direct message to Bot from alice is recorded with target alice. -/
theorem C9_file_log_witness :
    log_to_file ("Bot") [] ("quit") ("alice") ("bye") ("#c") ("") ("") = none
      ∧ (⟨("privmsg"), ("alice"), ("hi"), ("alice"), (""), ("")⟩ : LogRecord).target
          = ("alice") :=
  ⟨(C9_file_log ("Bot") [] ("quit") ("alice") ("bye") ("#c") ("") ("")).1 rfl,
   (C9_file_log ("Bot") [(("privmsg"), ("fmt"))] ("privmsg") ("alice") ("hi") ("Bot")
       ("") ("")).2
     (Or.inl rfl) rfl ⟨("privmsg"), ("alice"), ("hi"), ("alice"), (""), ("")⟩ rfl⟩

/-- C10: an inbound message whose target is not a known channel leaves
the whole session state — in particular every channel's message_log —
unchanged, while the event is still logged with its own fields and still
handed to the module dispatcher. -/
theorem C10_private_message_frame (bot : SeshetBot) (source target message : String)
    (mods : List BotModule) (now : Nat)
    (h : dictFind bot.channels (IRCstr.norm target) = none) :
    (on_message bot source target message mods now).bot = bot
      ∧ (on_message bot source target message mods now).logged
          = ⟨("privmsg"), source, message, target, (""), ("")⟩
      ∧ (on_message bot source target message mods now).dispatch
          = run_modules bot ⟨("PRIVMSG"), source, target, message⟩ mods := by
  unfold on_message
  rw [h]
  exact ⟨rfl, rfl, rfl⟩

/-- Witness for C10: a private message to the bot in a fresh session —
no channel map entry — leaves the state untouched, logs the record, and
runs the dispatcher. -/
theorem C10_private_message_frame_witness :
    (on_message (freshBot ("Bot") ("u") ("r")) ("alice") ("Bot") ("hi") [] 0).bot
        = freshBot ("Bot") ("u") ("r")
      ∧ (on_message (freshBot ("Bot") ("u") ("r")) ("alice") ("Bot") ("hi") [] 0).logged
          = ⟨("privmsg"), ("alice"), ("hi"), ("Bot"), (""), ("")⟩
      ∧ (on_message (freshBot ("Bot") ("u") ("r")) ("alice") ("Bot") ("hi") [] 0).dispatch
          = run_modules (freshBot ("Bot") ("u") ("r"))
              ⟨("PRIVMSG"), ("alice"), ("Bot"), ("hi")⟩ [] :=
  C10_private_message_frame (freshBot ("Bot") ("u") ("r")) ("alice") ("Bot") ("hi") [] 0 rfl
